import Mathlib

/-!
Verification of the recurring-event occurrence generator and the facility
conflict validator of the barriolink backend (src/core/models.py), together
with the simpler booking overlap check.  Dates are embedded as integer day
numbers (day 0 chosen to be a Monday, so that `weekday` below agrees with
Python's `date.weekday()`), and times of day as minutes past midnight.
-/

namespace BarrioLink

/-- Status of an `Event` (`Event.Status` in src/core/models.py). -/
inductive EventStatus
  | pending
  | scheduled
  | cancelled
  | completed
deriving DecidableEq, Repr

/-- Recurrence type of an `Event` (`Event.RecurrenceType` in src/core/models.py). -/
inductive RecurrenceType
  | none
  | daily
  | weekly
  | monthly
  | quarterly
  | semestral
  | yearly
deriving DecidableEq, Repr

/-- A Python `datetime` value at minute granularity: a calendar day number and
the minutes past midnight.  Day numbers are integers with day 0 a Monday. -/
structure DateTime where
  day : ℤ
  minute : ℕ
deriving DecidableEq, Repr

/-- Python's strict `datetime` comparison for two values of like awareness:
lexicographic on the calendar day and the time of day. -/
def dtLt (a b : DateTime) : Bool :=
  decide (a.day < b.day) || (decide (a.day = b.day) && decide (a.minute < b.minute))

/-- Python's `datetime` comparison `a <= b` for two values of like awareness. -/
def dtLe (a b : DateTime) : Bool :=
  dtLt a b || decide (a = b)

/-- One entry of the occurrence list built by
`Event._generate_occurrences_for_validation`.  The `start_time` and `end_time`
dictionary entries hold `'HH:MM'` strings; they are embedded as minutes past
midnight.  `aware` records whether the two absolute datetimes of the entry are
timezone-aware (the stored event timestamps, which the model declares
timezone-aware) or naive (results of `datetime.combine`). -/
structure Occurrence where
  date : ℤ
  start_time : ℕ
  end_time : ℕ
  start_datetime : DateTime
  end_datetime : DateTime
  aware : Bool
deriving DecidableEq, Repr

/-- One parsed element of the `recurrence_times` JSON list.  `day` is the value
of the `'day'` key (`Option.none` when the key is missing, in which case the
Python equality against a weekday is false), and the two times are the
`'start_time'`/`'end_time'` strings with the code's defaults (`'00:00'` and
`'23:59'`) already applied, as minutes past midnight. -/
structure RecTimeEntry where
  day : Option ℤ
  start_time : ℕ
  end_time : ℕ
deriving DecidableEq, Repr

/-- The fields of `core.models.Event` read by the occurrence generator and the
facility conflict validator.  `start_day`/`start_min` split `start_datetime`
into its date and time of day; `end_dt` is the optional `end_datetime`;
`aware` records whether the stored timestamps are timezone-aware (the model
field comment declares them timezone-aware; the settings module fixing this is
not part of the sources, so it is kept as a parameter).
`recurrence_days_of_week` is the comma-separated string already split and
parsed to integers, the empty list standing for the falsy empty string, and
`recurrence_times` is the parsed JSON list, empty standing for the falsy
NULL or `[]`. -/
structure Event where
  pk : ℤ
  facility : Option ℤ
  status : EventStatus
  start_day : ℤ
  start_min : ℕ
  end_dt : Option DateTime
  aware : Bool
  recurrence_type : RecurrenceType
  recurrence_days_of_week : List ℤ
  recurrence_times : List RecTimeEntry
  recurrence_end_date : Option ℤ
deriving DecidableEq, Repr

/-- Python's `date.weekday()` on day numbers: Monday = 0, ..., Sunday = 6,
with day 0 chosen to be a Monday. -/
def weekday (d : ℤ) : ℤ := d % 7

/-- The list of calendar days visited by the `while current_date <= end_limit`
loop of `_generate_occurrences_for_validation`: all days from `a` to `b`
inclusive, empty when `b < a`. -/
def dayRange (a b : ℤ) : List ℤ :=
  (List.range (b + 1 - a).toNat).map (fun (i : ℕ) => a + (i : ℤ))

/-- The `end_limit` value of `_generate_occurrences_for_validation`:
`recurrence_end_date` when set (a Python `date` is always truthy), otherwise
the start date plus `max_days`. -/
def endLimit (e : Event) (max_days : ℤ) : ℤ :=
  match e.recurrence_end_date with
  | Option.none => e.start_day + max_days
  | some red => red

/-- The `should_include` flag computed for a day in the branch of
`_generate_occurrences_for_validation` that has no `recurrence_times` table:
DAILY includes every day; WEEKLY matches the explicit weekday set when the
`recurrence_days_of_week` string is non-empty and otherwise the start date's
weekday; every other recurrence type falls through to `should_include = True`. -/
def should_include (e : Event) (d : ℤ) : Bool :=
  match e.recurrence_type with
  | .daily => true
  | .weekly =>
      if e.recurrence_days_of_week ≠ [] then
        e.recurrence_days_of_week.contains (weekday d)
      else
        decide (weekday d = weekday e.start_day)
  | _ => true

/-- `Event._generate_occurrences_for_validation` (src/core/models.py).  The
result is `Option.none` exactly when the Python code would raise an
`AttributeError` by calling a method of `end_datetime = None` (the NONE branch
and the no-table recurring branch both read `end_datetime`); otherwise it is
`some` of the generated occurrence list.  In the NONE branch the absolute
datetimes are the stored (per the model, timezone-aware) timestamps; in both
recurring branches they are naive `datetime.combine` results.  Note that the
`recurrence_times` branch only appends occurrences for WEEKLY events. -/
def generate_occurrences_for_validation (e : Event) (max_days : ℤ) : Option (List Occurrence) :=
  if e.recurrence_type = .none then
    match e.end_dt with
    | Option.none => Option.none
    | some ed =>
        some [{ date := e.start_day, start_time := e.start_min, end_time := ed.minute,
                start_datetime := { day := e.start_day, minute := e.start_min },
                end_datetime := ed, aware := e.aware }]
  else if e.recurrence_times ≠ [] then
    some ((dayRange e.start_day (endLimit e max_days)).flatMap (fun d =>
      if e.recurrence_type = .weekly then
        (e.recurrence_times.filter (fun rt => decide (rt.day = some (weekday d)))).map
          (fun rt =>
            { date := d, start_time := rt.start_time, end_time := rt.end_time,
              start_datetime := { day := d, minute := rt.start_time },
              end_datetime := { day := d, minute := rt.end_time }, aware := false })
      else []))
  else
    match e.end_dt with
    | Option.none => Option.none
    | some ed =>
        some ((dayRange e.start_day (endLimit e max_days)).filterMap (fun d =>
          if should_include e d then
            some { date := d, start_time := e.start_min, end_time := ed.minute,
                   start_datetime := { day := d, minute := e.start_min },
                   end_datetime := { day := d, minute := ed.minute }, aware := false }
          else Option.none))

/-- `Event._check_overlap` (src/core/models.py).  A result `some b` means the
Python function returns `b`; `Option.none` means the first datetime comparison
raises a `TypeError`, which Python does exactly when one operand is
timezone-aware and the other naive (reached only on equal dates, since the
function returns `False` before comparing when the dates differ). -/
def check_overlap (occ1 occ2 : Occurrence) : Option Bool :=
  if occ1.date ≠ occ2.date then some false
  else if occ1.aware = occ2.aware then
    some (dtLt occ1.start_datetime occ2.end_datetime &&
          dtLt occ2.start_datetime occ1.end_datetime)
  else Option.none

/-- The guard of the facility conflict step in `Event.clean`
(src/core/models.py lines 434-436): the conflict validator runs iff the event
has a facility, an end timestamp, and status PENDING or SCHEDULED. -/
def runs_facility_conflict_check (e : Event) : Bool :=
  e.facility.isSome && e.end_dt.isSome &&
    (decide (e.status = .pending) || decide (e.status = .scheduled))

/-- The `search_end` date of `Event._validate_facility_conflicts`:
`recurrence_end_date` when set, otherwise the date of `start_datetime` plus
365 days (adding whole days to a datetime keeps its time of day, so the
resulting date is the start date plus 365). -/
def search_end (e : Event) : ℤ :=
  match e.recurrence_end_date with
  | Option.none => e.start_day + 365
  | some red => red

/-- Membership test of the queryset built in
`Event._validate_facility_conflicts`: same facility, status PENDING or
SCHEDULED, start date at most `search_end`, a different primary key, and the
disjunction of the three Q clauses restricting the recurrence window (an SQL
comparison against a NULL `recurrence_end_date` is false; `search_start` is
the candidate's start date). -/
def candidate_filter (e other : Event) : Bool :=
  decide (other.facility = e.facility) &&
  (decide (other.status = .pending) || decide (other.status = .scheduled)) &&
  decide (other.start_day ≤ search_end e) &&
  decide (other.pk ≠ e.pk) &&
  ((decide (other.recurrence_type = .none) && decide (e.start_day ≤ other.start_day)) ||
   (match other.recurrence_end_date with
    | Option.none => false
    | some red => decide (e.start_day ≤ red)) ||
   (decide (other.recurrence_end_date = Option.none) &&
    decide (other.start_day ≤ search_end e)))

/-- The list of other events that `Event._validate_facility_conflicts` fetches
and compares occurrences against, given the list of all stored events. -/
def conflicting_events (e : Event) (db : List Event) : List Event :=
  db.filter (candidate_filter e)

/-- Status of a `Booking` (`Booking.Status` in src/core/models.py). -/
inductive BookingStatus
  | confirmed
  | pending
  | cancelled
deriving DecidableEq, Repr

/-- The fields of `core.models.Booking` read by `Booking.clean`. -/
structure Booking where
  pk : ℤ
  facility : ℤ
  status : BookingStatus
  start_at : DateTime
  end_at : DateTime
deriving DecidableEq, Repr

/-- Outcome of `Booking.clean`: the end-after-start `ValidationError`, the
facility-already-booked `ValidationError`, or a pass. -/
inductive BookingCleanResult
  | errEndNotAfterStart
  | errFacilityBusy
  | ok
deriving DecidableEq, Repr

/-- Membership test of the overlap queryset in `Booking.clean`: same facility,
status CONFIRMED or PENDING, a different primary key, and the strict interval
conditions `start_at < b.end_at` and `end_at > b.start_at`. -/
def booking_overlaps (b other : Booking) : Bool :=
  decide (other.facility = b.facility) &&
  (decide (other.status = .confirmed) || decide (other.status = .pending)) &&
  decide (other.pk ≠ b.pk) &&
  dtLt other.start_at b.end_at &&
  dtLt b.start_at other.end_at

/-- `Booking.clean` (src/core/models.py): reject when `end_at <= start_at`,
pass immediately for a cancelled booking, otherwise reject iff the overlap
queryset against the stored bookings is non-empty. -/
def Booking.clean (b : Booking) (db : List Booking) : BookingCleanResult :=
  if dtLe b.end_at b.start_at then .errEndNotAfterStart
  else if b.status = .cancelled then .ok
  else if (db.filter (booking_overlaps b)).isEmpty then .ok
  else .errFacilityBusy

/-! ## Helper lemmas -/

theorem dtLt_irrefl (a : DateTime) : dtLt a a = false := by
  simp [dtLt]

theorem mem_dayRange {a b d : ℤ} : d ∈ dayRange a b ↔ a ≤ d ∧ d ≤ b := by
  unfold dayRange
  simp only [List.mem_map, List.mem_range]
  constructor
  · rintro ⟨i, hi, rfl⟩
    omega
  · intro h
    exact ⟨(d - a).toNat, by omega, by omega⟩

/-! ## Claims -/

/-- C1: `_check_overlap` returns `True` iff the two occurrences fall on the
same calendar date and their absolute intervals intersect under strict
inequality; occurrences on different dates never conflict, and touching
boundaries (`end_A == start_B`) do not conflict.  Stated for pairs whose
datetimes have like awareness, so that the Python comparisons return. -/
theorem check_overlap_same_date_strict_iff (o1 o2 : Occurrence)
    (h : o1.aware = o2.aware) :
    (check_overlap o1 o2 = some true ↔
        (o1.date = o2.date ∧ dtLt o1.start_datetime o2.end_datetime = true ∧
          dtLt o2.start_datetime o1.end_datetime = true)) ∧
    (o1.date ≠ o2.date → check_overlap o1 o2 = some false) ∧
    (o1.end_datetime = o2.start_datetime → check_overlap o1 o2 = some false) := by
  unfold check_overlap
  by_cases hd : o1.date = o2.date
  · refine ⟨?_, ?_, ?_⟩
    · simp [hd, h]
    · intro hne
      exact absurd hd hne
    · intro he
      simp [hd, h, ← he, dtLt_irrefl]
  · refine ⟨?_, ?_, ?_⟩
    · simp [hd]
    · intro _
      simp [hd]
    · intro _
      simp [hd]

theorem check_overlap_iff_witness :
    check_overlap ⟨0, 600, 720, ⟨0, 600⟩, ⟨0, 720⟩, false⟩
        ⟨0, 660, 780, ⟨0, 660⟩, ⟨0, 780⟩, false⟩ = some true :=
  (check_overlap_same_date_strict_iff _ _ rfl).1.mpr ⟨rfl, by decide, by decide⟩

/-- C2: for an event with recurrence type NONE and an end timestamp, the
generator returns exactly one occurrence whose date, clock times and absolute
start/end are the event's own start/end timestamps. -/
theorem none_recurrence_single_occurrence (e : Event) (ed : DateTime)
    (h1 : e.recurrence_type = .none) (h2 : e.end_dt = some ed) :
    generate_occurrences_for_validation e 365 =
      some [{ date := e.start_day, start_time := e.start_min, end_time := ed.minute,
              start_datetime := { day := e.start_day, minute := e.start_min },
              end_datetime := ed, aware := e.aware }] := by
  unfold generate_occurrences_for_validation
  rw [if_pos h1, h2]

theorem none_recurrence_single_occurrence_witness :
    generate_occurrences_for_validation
      { pk := 1, facility := Option.none, status := .pending, start_day := 10,
        start_min := 600, end_dt := some ⟨10, 720⟩, aware := true,
        recurrence_type := .none, recurrence_days_of_week := [],
        recurrence_times := [], recurrence_end_date := Option.none } 365 =
      some [{ date := 10, start_time := 600, end_time := 720,
              start_datetime := ⟨10, 600⟩, end_datetime := ⟨10, 720⟩,
              aware := true }] :=
  none_recurrence_single_occurrence _ _ rfl rfl

/-- C3: `_check_overlap` is symmetric in its two occurrences, and as a pure
function of its inputs it is idempotent: repeated evaluation on unchanged
data gives the same result. -/
theorem check_overlap_symm_idempotent (o1 o2 : Occurrence) :
    check_overlap o1 o2 = check_overlap o2 o1 ∧
      check_overlap o1 o2 = check_overlap o1 o2 := by
  refine ⟨?_, rfl⟩
  unfold check_overlap
  by_cases hd : o1.date = o2.date
  · by_cases ha : o1.aware = o2.aware
    · simp [hd, ha, Bool.and_comm]
    · have ha2 : ¬(o2.aware = o1.aware) := fun hh => ha hh.symm
      simp [hd, ha, ha2]
  · have hd2 : ¬(o2.date = o1.date) := fun hh => hd hh.symm
    simp [hd, hd2]

/-- C4: the queryset of `_validate_facility_conflicts` only returns events
whose status is PENDING or SCHEDULED, so cancelled or completed events never
cause a conflict; and the guard in `Event.clean` runs the conflict check only
when the candidate has a facility, an end timestamp and status PENDING or
SCHEDULED — in particular events without a facility are exempt. -/
theorem facility_conflict_prefilter (e : Event) (db : List Event) (o : Event)
    (h : o ∈ conflicting_events e db) :
    (o.status = .pending ∨ o.status = .scheduled) ∧
      (e.facility = Option.none → runs_facility_conflict_check e = false) ∧
      (runs_facility_conflict_check e = true →
        e.facility.isSome = true ∧ e.end_dt.isSome = true ∧
          (e.status = .pending ∨ e.status = .scheduled)) := by
  refine ⟨?_, ?_, ?_⟩
  · unfold conflicting_events at h
    have hf := (List.mem_filter.mp h).2
    simp only [candidate_filter, Bool.and_eq_true, Bool.or_eq_true,
      decide_eq_true_eq] at hf
    tauto
  · intro hn
    simp [runs_facility_conflict_check, hn]
  · intro hr
    simp only [runs_facility_conflict_check, Bool.and_eq_true, Bool.or_eq_true,
      decide_eq_true_eq] at hr
    tauto

def eC4 : Event :=
  { pk := 1, facility := some 1, status := .pending, start_day := 0,
    start_min := 600, end_dt := some ⟨0, 720⟩, aware := true,
    recurrence_type := .none, recurrence_days_of_week := [],
    recurrence_times := [], recurrence_end_date := Option.none }

def oC4 : Event :=
  { pk := 2, facility := some 1, status := .scheduled, start_day := 0,
    start_min := 630, end_dt := some ⟨0, 700⟩, aware := true,
    recurrence_type := .none, recurrence_days_of_week := [],
    recurrence_times := [], recurrence_end_date := Option.none }

theorem facility_conflict_prefilter_witness :
    (oC4.status = .pending ∨ oC4.status = .scheduled) ∧
      (eC4.facility = Option.none → runs_facility_conflict_check eC4 = false) ∧
      (runs_facility_conflict_check eC4 = true →
        eC4.facility.isSome = true ∧ eC4.end_dt.isSome = true ∧
          (eC4.status = .pending ∨ eC4.status = .scheduled)) :=
  facility_conflict_prefilter eC4 [oC4] oC4 (by decide)

/-- C5: a booking whose `end_at` is not strictly after `start_at` is rejected
with the end-after-start error, and the outcome does not depend on the stored
bookings — no overlap query influences the verdict. -/
theorem booking_end_not_after_start_rejected (b : Booking) (db db2 : List Booking)
    (h : dtLe b.end_at b.start_at = true) :
    Booking.clean b db = .errEndNotAfterStart ∧
      Booking.clean b db = Booking.clean b db2 := by
  unfold Booking.clean
  simp [h]

theorem booking_end_not_after_start_rejected_witness :
    Booking.clean ⟨1, 2, .confirmed, ⟨5, 600⟩, ⟨5, 540⟩⟩ [] = .errEndNotAfterStart ∧
      Booking.clean ⟨1, 2, .confirmed, ⟨5, 600⟩, ⟨5, 540⟩⟩ [] =
        Booking.clean ⟨1, 2, .confirmed, ⟨5, 600⟩, ⟨5, 540⟩⟩
          [⟨2, 2, .confirmed, ⟨5, 500⟩, ⟨5, 700⟩⟩] :=
  booking_end_not_after_start_rejected _ _ _ (by decide)

theorem dayRange_length (a b : ℤ) : (dayRange a b).length = (b + 1 - a).toNat := by
  simp [dayRange]

theorem length_filterMap_some {α β : Type} (g : α → β) (l : List α) :
    (l.filterMap (fun a => some (g a))).length = l.length := by
  induction l with
  | nil => rfl
  | cons x xs ih => simp [List.filterMap_cons, ih]

/-- C8: a DAILY event without a time table, bounded by a recurrence end date on
or after its start date, generates exactly the inclusive number of days
between the start date and the end date. -/
theorem daily_occurrence_count (e : Event) (ed : DateTime) (red : ℤ)
    (L : List Occurrence) (h1 : e.recurrence_type = .daily)
    (h2 : e.recurrence_times = []) (h3 : e.end_dt = some ed)
    (h4 : e.recurrence_end_date = some red) (h5 : e.start_day ≤ red)
    (hL : generate_occurrences_for_validation e 365 = some L) :
    (L.length : ℤ) = red - e.start_day + 1 := by
  unfold generate_occurrences_for_validation at hL
  rw [if_neg (by simp [h1]), if_neg (by simp [h2]), h3] at hL
  obtain rfl := Option.some.inj hL
  have hinc : ∀ d : ℤ, should_include e d = true := by
    intro d
    simp [should_include, h1]
  have hlim : endLimit e 365 = red := by
    simp [endLimit, h4]
  simp only [hinc, if_true]
  rw [length_filterMap_some, dayRange_length, hlim]
  omega

def eC8 : Event :=
  { pk := 1, facility := some 1, status := .pending, start_day := 0,
    start_min := 540, end_dt := some ⟨0, 600⟩, aware := true,
    recurrence_type := .daily, recurrence_days_of_week := [],
    recurrence_times := [], recurrence_end_date := some 2 }

def LC8 : List Occurrence :=
  [⟨0, 540, 600, ⟨0, 540⟩, ⟨0, 600⟩, false⟩,
   ⟨1, 540, 600, ⟨1, 540⟩, ⟨1, 600⟩, false⟩,
   ⟨2, 540, 600, ⟨2, 540⟩, ⟨2, 600⟩, false⟩]

theorem daily_occurrence_count_witness :
    (LC8.length : ℤ) = 2 - eC8.start_day + 1 :=
  daily_occurrence_count eC8 ⟨0, 600⟩ 2 LC8 rfl rfl rfl rfl (by decide) (by decide)

/-- C9: a WEEKLY event without a time table and with no explicit weekday set
generates occurrences exactly on the days of the range that share the start
date's weekday: every generated occurrence falls on that weekday, and every
day of that weekday between the start date and the end limit (the recurrence
end date, or else the 365-day horizon) carries an occurrence. -/
theorem weekly_default_same_weekday (e : Event) (ed : DateTime)
    (L : List Occurrence) (h1 : e.recurrence_type = .weekly)
    (h2 : e.recurrence_times = []) (h3 : e.recurrence_days_of_week = [])
    (h4 : e.end_dt = some ed)
    (hL : generate_occurrences_for_validation e 365 = some L) :
    (∀ occ ∈ L, weekday occ.date = weekday e.start_day) ∧
      (∀ d : ℤ, e.start_day ≤ d → d ≤ endLimit e 365 →
        weekday d = weekday e.start_day → ∃ occ ∈ L, occ.date = d) := by
  unfold generate_occurrences_for_validation at hL
  rw [if_neg (by simp [h1]), if_neg (by simp [h2]), h4] at hL
  obtain rfl := Option.some.inj hL
  have hinc : ∀ d : ℤ, should_include e d =
      decide (weekday d = weekday e.start_day) := by
    intro d
    simp [should_include, h1, h3]
  constructor
  · intro occ hocc
    rw [List.mem_filterMap] at hocc
    obtain ⟨d, _, hf⟩ := hocc
    rw [hinc d] at hf
    by_cases hw : weekday d = weekday e.start_day
    · rw [if_pos (by simpa using hw)] at hf
      obtain rfl := Option.some.inj hf
      simpa using hw
    · rw [if_neg (by simpa using hw)] at hf
      exact absurd hf (by simp)
  · intro d hd1 hd2 hw
    refine ⟨{ date := d, start_time := e.start_min, end_time := ed.minute,
              start_datetime := { day := d, minute := e.start_min },
              end_datetime := { day := d, minute := ed.minute }, aware := false },
            List.mem_filterMap.mpr ⟨d, mem_dayRange.mpr ⟨hd1, hd2⟩, ?_⟩, rfl⟩
    rw [hinc d, if_pos (by simpa using hw)]

def eC9 : Event :=
  { pk := 1, facility := some 1, status := .pending, start_day := 0,
    start_min := 540, end_dt := some ⟨0, 600⟩, aware := true,
    recurrence_type := .weekly, recurrence_days_of_week := [],
    recurrence_times := [], recurrence_end_date := some 14 }

def LC9 : List Occurrence :=
  [⟨0, 540, 600, ⟨0, 540⟩, ⟨0, 600⟩, false⟩,
   ⟨7, 540, 600, ⟨7, 540⟩, ⟨7, 600⟩, false⟩,
   ⟨14, 540, 600, ⟨14, 540⟩, ⟨14, 600⟩, false⟩]

theorem weekly_default_same_weekday_witness :
    (∀ occ ∈ LC9, weekday occ.date = weekday eC9.start_day) ∧
      (∀ d : ℤ, eC9.start_day ≤ d → d ≤ endLimit eC9 365 →
        weekday d = weekday eC9.start_day → ∃ occ ∈ LC9, occ.date = d) :=
  weekly_default_same_weekday eC9 ⟨0, 600⟩ LC9 rfl rfl rfl rfl (by decide)

theorem dayRange_nodup (a b : ℤ) : (dayRange a b).Nodup := by
  unfold dayRange
  exact (List.nodup_range _).map (fun i j h => by omega)

theorem countP_flatMap_eq {α β : Type} (p : β → Bool) (f : α → List β)
    (l : List α) :
    (l.flatMap f).countP p = (l.map (fun a => (f a).countP p)).sum := by
  induction l with
  | nil => rfl
  | cons x xs ih => simp [List.flatMap_cons, List.countP_append, ih]

theorem sum_map_eq_single {g : ℤ → ℕ} {l : List ℤ} {d : ℤ} (hmem : d ∈ l)
    (hnd : l.Nodup) (h0 : ∀ x ∈ l, x ≠ d → g x = 0) :
    (l.map g).sum = g d := by
  induction l with
  | nil => cases hmem
  | cons x xs ih =>
      obtain ⟨hx, hnd2⟩ := List.nodup_cons.mp hnd
      rcases List.mem_cons.mp hmem with rfl | hmem2
      · have hz : ∀ y ∈ xs, g y = 0 := fun y hy =>
          h0 y (List.mem_cons_of_mem _ hy) (fun he => hx (he ▸ hy))
        have : (xs.map g).sum = 0 :=
          List.sum_eq_zero (by
            intro n hn
            obtain ⟨y, hy, rfl⟩ := List.mem_map.mp hn
            exact hz y hy)
        simp [this]
      · have hxd : x ≠ d := fun he => hx (he ▸ hmem2)
        have hgx : g x = 0 := h0 x (List.mem_cons_self x xs) hxd
        have := ih hmem2 hnd2 (fun y hy hyd => h0 y (List.mem_cons_of_mem _ hy) hyd)
        simp [hgx, this]

def eC6 : Event :=
  { pk := 1, facility := some 1, status := .pending, start_day := 0,
    start_min := 540, end_dt := some ⟨0, 600⟩, aware := true,
    recurrence_type := .daily, recurrence_days_of_week := [],
    recurrence_times := [{ day := some 0, start_time := 600, end_time := 660 }],
    recurrence_end_date := some 0 }

/-- C6 counterexample: a DAILY recurring event with a non-empty per-weekday
time table whose single entry names the start day's weekday generates no
occurrence at all, because the `recurrence_times` branch of the generator
only appends occurrences when the recurrence type is WEEKLY. -/
theorem daily_time_table_generates_nothing :
    generate_occurrences_for_validation eC6 365 = some [] ∧
      eC6.recurrence_type ≠ .none ∧ eC6.recurrence_times ≠ [] ∧
      eC6.recurrence_times.map (fun rt => rt.day) =
        [some (weekday eC6.start_day)] ∧
      eC6.start_day ≤ endLimit eC6 365 := by
  decide

/-- C6 (amended to WEEKLY recurrence, the only type the `recurrence_times`
branch handles): for each calendar day of the range and each table entry whose
day matches the day-of-week, the generator emits an occurrence with that
entry's start/end time, and the occurrences on that day are exactly one per
matching entry. -/
theorem weekly_time_table_emits_matching_entries (e : Event)
    (L : List Occurrence) (h1 : e.recurrence_type = .weekly)
    (hL : generate_occurrences_for_validation e 365 = some L)
    (d : ℤ) (hd1 : e.start_day ≤ d) (hd2 : d ≤ endLimit e 365)
    (hne : e.recurrence_times ≠ []) :
    (∀ rt ∈ e.recurrence_times, rt.day = some (weekday d) →
      ({ date := d, start_time := rt.start_time, end_time := rt.end_time,
         start_datetime := { day := d, minute := rt.start_time },
         end_datetime := { day := d, minute := rt.end_time },
         aware := false } : Occurrence) ∈ L) ∧
      L.countP (fun occ => decide (occ.date = d)) =
        (e.recurrence_times.filter
          (fun rt => decide (rt.day = some (weekday d)))).length := by
  unfold generate_occurrences_for_validation at hL
  rw [if_neg (by simp [h1]), if_pos hne] at hL
  obtain rfl := Option.some.inj hL
  simp only [h1, reduceCtorEq, if_true, eq_self_iff_true] at *
  constructor
  · intro rt hrt hday
    refine List.mem_flatMap.mpr ⟨d, mem_dayRange.mpr ⟨hd1, hd2⟩, ?_⟩
    exact List.mem_map.mpr
      ⟨rt, List.mem_filter.mpr ⟨hrt, by simp [hday]⟩, rfl⟩
  · rw [countP_flatMap_eq]
    rw [sum_map_eq_single (mem_dayRange.mpr ⟨hd1, hd2⟩) (dayRange_nodup _ _)
      (by
        intro x _ hxd
        rw [List.countP_map]
        exact List.countP_eq_zero.mpr (by
          intro rt _
          simp [hxd]))]
    rw [List.countP_map]
    have : ∀ rt : RecTimeEntry,
        (fun occ : Occurrence => decide (occ.date = d))
            ({ date := d, start_time := rt.start_time, end_time := rt.end_time,
               start_datetime := { day := d, minute := rt.start_time },
               end_datetime := { day := d, minute := rt.end_time },
               aware := false }) = true := by
      intro rt
      simp
    simp [List.countP_eq_length.mpr]

def eC6w : Event :=
  { pk := 1, facility := some 1, status := .pending, start_day := 0,
    start_min := 540, end_dt := some ⟨0, 600⟩, aware := true,
    recurrence_type := .weekly, recurrence_days_of_week := [],
    recurrence_times := [{ day := some 0, start_time := 600, end_time := 660 },
                         { day := some 2, start_time := 540, end_time := 570 }],
    recurrence_end_date := some 7 }

def LC6 : List Occurrence :=
  [⟨0, 600, 660, ⟨0, 600⟩, ⟨0, 660⟩, false⟩,
   ⟨2, 540, 570, ⟨2, 540⟩, ⟨2, 570⟩, false⟩,
   ⟨7, 600, 660, ⟨7, 600⟩, ⟨7, 660⟩, false⟩]

theorem weekly_time_table_emits_witness :
    (∀ rt ∈ eC6w.recurrence_times, rt.day = some (weekday 0) →
      ({ date := 0, start_time := rt.start_time, end_time := rt.end_time,
         start_datetime := { day := 0, minute := rt.start_time },
         end_datetime := { day := 0, minute := rt.end_time },
         aware := false } : Occurrence) ∈ LC6) ∧
      LC6.countP (fun occ => decide (occ.date = 0)) =
        (eC6w.recurrence_times.filter
          (fun rt => decide (rt.day = some (weekday 0)))).length :=
  weekly_time_table_emits_matching_entries eC6w LC6 rfl (by decide) 0
    (by decide) (by decide) (by decide)

/-- Sufficient horizon condition used by `well_formed`: when a recurrence end
date is set it lies at least 6 days after the start date, so that the day
range from the start date to the end limit covers every weekday at least
once. -/
def horizon_ok (e : Event) : Bool :=
  match e.recurrence_end_date with
  | Option.none => true
  | some red => decide (e.start_day + 6 ≤ red)

/-- A value that Python's `date.weekday()` can actually take. -/
def valid_weekday (w : ℤ) : Bool :=
  decide (0 ≤ w) && decide (w ≤ 6)

/-- A sufficient well-formedness condition under which the generator returns a
non-empty list: an end timestamp is present; a recurring event with a time
table has type WEEKLY, a range covering a full week and an entry naming a
real weekday; a recurring event without a table has a range reaching its
start date (a full week for WEEKLY), and a WEEKLY event with an explicit
weekday set names a real weekday. -/
def well_formed (e : Event) : Bool :=
  e.end_dt.isSome &&
    (if e.recurrence_type = .none then true
     else if e.recurrence_times ≠ [] then
       decide (e.recurrence_type = .weekly) && horizon_ok e &&
         e.recurrence_times.any (fun rt =>
           match rt.day with
           | some w => valid_weekday w
           | Option.none => false)
     else
       horizon_ok e &&
         (if e.recurrence_type = .weekly then
            (if e.recurrence_days_of_week ≠ [] then
               e.recurrence_days_of_week.any valid_weekday
             else true)
          else true))

theorem horizon_week_le (e : Event) (h : horizon_ok e = true) :
    e.start_day + 6 ≤ endLimit e 365 := by
  rcases hred : e.recurrence_end_date with _ | red
  · simp only [endLimit, hred]
    omega
  · simp only [horizon_ok, hred, decide_eq_true_eq] at h
    simp only [endLimit, hred]
    omega

theorem weekday_reachable (s w : ℤ) (h0 : 0 ≤ w) (h6 : w ≤ 6) :
    ∃ off : ℤ, 0 ≤ off ∧ off ≤ 6 ∧ weekday (s + off) = w := by
  refine ⟨(w - s) % 7, by omega, by omega, ?_⟩
  unfold weekday
  omega

def eC7 : Event :=
  { pk := 1, facility := some 1, status := .pending, start_day := 0,
    start_min := 540, end_dt := some ⟨0, 600⟩, aware := true,
    recurrence_type := .daily, recurrence_days_of_week := [],
    recurrence_times := [], recurrence_end_date := some 366 }

/-- C7 counterexample: a DAILY event whose recurrence end date lies 366 days
after its start date generates an occurrence 366 days after the start date,
beyond the 365-day horizon — the horizon only bounds the expansion when no
recurrence end date is set. -/
theorem occurrence_beyond_horizon :
    ({ date := 366, start_time := 540, end_time := 600,
       start_datetime := ⟨366, 540⟩, end_datetime := ⟨366, 600⟩,
       aware := false } : Occurrence) ∈
        (generate_occurrences_for_validation eC7 365).getD [] ∧
      eC7.start_day + 365 < 366 := by
  decide

/-- C7 (amended): every occurrence the generator emits falls no later than the
later of the start date and the end limit — the recurrence end date when one
is set, which may exceed the 365-day horizon, otherwise the start date plus
365 — and the generated list is non-empty for a well-formed event. -/
theorem occurrences_bounded_and_nonempty (e : Event) (L : List Occurrence)
    (hL : generate_occurrences_for_validation e 365 = some L)
    (hw : well_formed e = true) :
    (∀ occ ∈ L, occ.date ≤ max e.start_day (endLimit e 365)) ∧ L ≠ [] := by
  simp only [well_formed, Bool.and_eq_true] at hw
  obtain ⟨hend, hw2⟩ := hw
  obtain ⟨ed, hed⟩ : ∃ ed, e.end_dt = some ed := by
    cases he : e.end_dt
    · rw [he] at hend
      cases hend
    · exact ⟨_, rfl⟩
  by_cases h0 : e.recurrence_type = .none
  · unfold generate_occurrences_for_validation at hL
    rw [if_pos h0, hed] at hL
    obtain rfl := Option.some.inj hL
    refine ⟨?_, by simp⟩
    intro occ hocc
    obtain rfl := List.mem_singleton.mp hocc
    exact le_max_left _ _
  · by_cases ht : e.recurrence_times = []
    · -- no time table: the filterMap branch
      unfold generate_occurrences_for_validation at hL
      rw [if_neg h0, if_neg (by simp [ht]), hed] at hL
      obtain rfl := Option.some.inj hL
      rw [if_neg h0, if_neg (by simp [ht])] at hw2
      rw [Bool.and_eq_true] at hw2
      obtain ⟨hho, hrest⟩ := hw2
      have hsle : e.start_day ≤ endLimit e 365 := by
        have := horizon_week_le e hho
        omega
      constructor
      · intro occ hocc
        obtain ⟨d, hd, hf⟩ := List.mem_filterMap.mp hocc
        obtain ⟨hd1, hd2⟩ := mem_dayRange.mp hd
        by_cases hinc : should_include e d = true
        · rw [if_pos hinc] at hf
          obtain rfl := Option.some.inj hf
          exact le_trans hd2 (le_max_right _ _)
        · rw [if_neg hinc] at hf
          cases hf
      · have hday : ∃ d : ℤ, e.start_day ≤ d ∧ d ≤ endLimit e 365 ∧
            should_include e d = true := by
          cases htype : e.recurrence_type with
          | none => exact absurd htype h0
          | daily => exact ⟨e.start_day, le_refl _, hsle, by simp [should_include, htype]⟩
          | weekly =>
              by_cases hdw : e.recurrence_days_of_week = []
              · exact ⟨e.start_day, le_refl _, hsle,
                  by simp [should_include, htype, hdw]⟩
              · rw [if_pos htype, if_pos hdw] at hrest
                obtain ⟨w, hwmem, hvw⟩ := List.any_eq_true.mp hrest
                simp only [valid_weekday, Bool.and_eq_true, decide_eq_true_eq] at hvw
                obtain ⟨off, hoff0, hoff6, hoffw⟩ :=
                  weekday_reachable e.start_day w hvw.1 hvw.2
                have hwk := horizon_week_le e hho
                refine ⟨e.start_day + off, by omega, by omega, ?_⟩
                simp only [should_include, htype, if_pos hdw, hoffw]
                exact List.elem_eq_true_of_mem hwmem
          | monthly => exact ⟨e.start_day, le_refl _, hsle, by simp [should_include, htype]⟩
          | quarterly => exact ⟨e.start_day, le_refl _, hsle, by simp [should_include, htype]⟩
          | semestral => exact ⟨e.start_day, le_refl _, hsle, by simp [should_include, htype]⟩
          | yearly => exact ⟨e.start_day, le_refl _, hsle, by simp [should_include, htype]⟩
        obtain ⟨d, hd1, hd2, hinc⟩ := hday
        refine List.ne_nil_of_mem (a :=
          { date := d, start_time := e.start_min, end_time := ed.minute,
            start_datetime := { day := d, minute := e.start_min },
            end_datetime := { day := d, minute := ed.minute }, aware := false }) ?_
        exact List.mem_filterMap.mpr
          ⟨d, mem_dayRange.mpr ⟨hd1, hd2⟩, by rw [if_pos hinc]⟩
    · -- time table branch
      have ht2 : e.recurrence_times ≠ [] := ht
      unfold generate_occurrences_for_validation at hL
      rw [if_neg h0, if_pos ht2] at hL
      obtain rfl := Option.some.inj hL
      rw [if_neg h0, if_pos ht2] at hw2
      simp only [Bool.and_eq_true, decide_eq_true_eq] at hw2
      obtain ⟨⟨hwk, hho⟩, hany⟩ := hw2
      constructor
      · intro occ hocc
        obtain ⟨d, hd, hf⟩ := List.mem_flatMap.mp hocc
        obtain ⟨hd1, hd2⟩ := mem_dayRange.mp hd
        rw [if_pos hwk] at hf
        obtain ⟨rt, _, rfl⟩ := List.mem_map.mp hf
        exact le_trans hd2 (le_max_right _ _)
      · obtain ⟨rt, hrt, hvrt⟩ := List.any_eq_true.mp hany
        obtain ⟨w, hday, hvw⟩ : ∃ w, rt.day = some w ∧ valid_weekday w = true := by
          cases hdc : rt.day
          · rw [hdc] at hvrt
            cases hvrt
          · rw [hdc] at hvrt
            exact ⟨_, rfl, hvrt⟩
        simp only [valid_weekday, Bool.and_eq_true, decide_eq_true_eq] at hvw
        obtain ⟨off, hoff0, hoff6, hoffw⟩ :=
          weekday_reachable e.start_day w hvw.1 hvw.2
        have hwle := horizon_week_le e hho
        refine List.ne_nil_of_mem (a :=
          { date := e.start_day + off, start_time := rt.start_time,
            end_time := rt.end_time,
            start_datetime := { day := e.start_day + off, minute := rt.start_time },
            end_datetime := { day := e.start_day + off, minute := rt.end_time },
            aware := false }) ?_
        refine List.mem_flatMap.mpr
          ⟨e.start_day + off, mem_dayRange.mpr ⟨by omega, by omega⟩, ?_⟩
        rw [if_pos hwk]
        refine List.mem_map.mpr ⟨rt, List.mem_filter.mpr ⟨hrt, ?_⟩, rfl⟩
        rw [hoffw, hday]
        simp

def eC7w : Event :=
  { pk := 1, facility := some 1, status := .pending, start_day := 0,
    start_min := 540, end_dt := some ⟨0, 600⟩, aware := true,
    recurrence_type := .daily, recurrence_days_of_week := [],
    recurrence_times := [], recurrence_end_date := some 6 }

def LC7w : List Occurrence :=
  [⟨0, 540, 600, ⟨0, 540⟩, ⟨0, 600⟩, false⟩,
   ⟨1, 540, 600, ⟨1, 540⟩, ⟨1, 600⟩, false⟩,
   ⟨2, 540, 600, ⟨2, 540⟩, ⟨2, 600⟩, false⟩,
   ⟨3, 540, 600, ⟨3, 540⟩, ⟨3, 600⟩, false⟩,
   ⟨4, 540, 600, ⟨4, 540⟩, ⟨4, 600⟩, false⟩,
   ⟨5, 540, 600, ⟨5, 540⟩, ⟨5, 600⟩, false⟩,
   ⟨6, 540, 600, ⟨6, 540⟩, ⟨6, 600⟩, false⟩]

theorem occurrences_bounded_and_nonempty_witness :
    (∀ occ ∈ LC7w, occ.date ≤ max eC7w.start_day (endLimit eC7w 365)) ∧
      LC7w ≠ [] :=
  occurrences_bounded_and_nonempty eC7w LC7w (by decide) (by decide)

def eC10A : Event :=
  { pk := 1, facility := some 1, status := .scheduled, start_day := 0,
    start_min := 1080, end_dt := some ⟨0, 1200⟩, aware := true,
    recurrence_type := .weekly, recurrence_days_of_week := [],
    recurrence_times := [], recurrence_end_date := some 0 }

def eC10B : Event :=
  { pk := 2, facility := some 1, status := .pending, start_day := 0,
    start_min := 1140, end_dt := some ⟨0, 1260⟩, aware := true,
    recurrence_type := .none, recurrence_days_of_week := [],
    recurrence_times := [], recurrence_end_date := Option.none }

/-- C10 fails on the code: a NONE-recurrence event stores timezone-aware
timestamps (its occurrence carries them unchanged), while a recurring event's
occurrences carry naive `datetime.combine` results; pairing the two on the
same Monday (the WEEKLY 18:00-20:00 versus NONE 19:00-21:00 scenario) makes
the first comparison of `_check_overlap` compare an aware datetime with a
naive one, which raises `TypeError` instead of returning a verdict. -/
theorem mixed_awareness_comparison_raises :
    generate_occurrences_for_validation eC10B 365 =
        some [⟨0, 1140, 1260, ⟨0, 1140⟩, ⟨0, 1260⟩, true⟩] ∧
      generate_occurrences_for_validation eC10A 365 =
        some [⟨0, 1080, 1200, ⟨0, 1080⟩, ⟨0, 1200⟩, false⟩] ∧
      (⟨0, 1140, 1260, ⟨0, 1140⟩, ⟨0, 1260⟩, true⟩ : Occurrence).date =
        (⟨0, 1080, 1200, ⟨0, 1080⟩, ⟨0, 1200⟩, false⟩ : Occurrence).date ∧
      check_overlap ⟨0, 1140, 1260, ⟨0, 1140⟩, ⟨0, 1260⟩, true⟩
        ⟨0, 1080, 1200, ⟨0, 1080⟩, ⟨0, 1200⟩, false⟩ = Option.none := by
  decide

end BarrioLink
